import Mathlib

/-!
Verification of the pay-cycle accounting engine of `src/src/App.jsx`
(personal budgeting tool).

Modelling conventions:
* A JS `Date` in this program is always a local midnight, so it is determined
  by its day count since the epoch 1970-01-01.  We represent a parsed calendar
  date by its civil fields (`CDate`) and obtain the timestamp semantics through
  `toDays`, the standard civil-from-fields day count (Gregorian calendar).
  `toDays` is linear in the day argument, which is exactly how JS `Date`
  normalises out-of-range day values, so field-wise operations
  (`setDate`, `setMonth`, month-length lookups) are faithfully expressed with it.
* JS numbers are modelled as rationals (`Rat`), JS strings as `String`,
  absent (`undefined` / empty) values as `Option`.
* React state updates (`setSpending`, `setGoals`, ...) are modelled as pure
  record updates on an `AppState` snapshot; the system clock (`new Date()`,
  `Date.now()`) is passed in as an explicit argument.
-/

/-- A civil calendar date: year, JS month index (0 = January .. 11 = December),
day of month.  Models the fields of a JS `Date` at local midnight. -/
structure CDate where
  y : Int
  m : Int
  d : Int
deriving DecidableEq, Repr

/-- Leap-year test of the Gregorian calendar (what JS `Date` implements). -/
def isLeap (y : Int) : Bool := y % 4 == 0 && (y % 100 != 0 || y % 400 == 0)

/-- Number of days of month `m` (JS index) in year `y`.  This is the value the
source obtains as `new Date(year, month + 1, 0).getDate()` (day 0 of the next
month), e.g. line 83 of `App.jsx`. -/
def lastDayOfMonth (y m : Int) : Int :=
  if m = 1 then (if isLeap y then 29 else 28)
  else if m = 3 ∨ m = 5 ∨ m = 8 ∨ m = 10 then 30 else 31

/-- Day count since 1970-01-01 of the civil date `(y, m, d)`, `m` a JS month
index.  Standard days-from-civil computation (shifted March-based year); all
divisions are by positive constants, where Lean's integer division is the
required floor division.  The result is linear in `d`, so a `d` outside
`[1, lastDayOfMonth y m]` denotes exactly the date JS `Date` normalisation
produces for that field combination. -/
def toDays (y m d : Int) : Int :=
  let yy := if m ≤ 1 then y - 1 else y
  let mp := if m ≤ 1 then m + 10 else m - 2
  365 * yy + yy / 4 - yy / 100 + yy / 400 + (153 * mp + 2) / 5 + d - 1 - 719468

/-- Timestamp (day count) of a `CDate`; JS `Date` comparisons compare this. -/
def CDate.days (p : CDate) : Int := toDays p.y p.m p.d

/-- `p` holds what a real (normalised) JS `Date` reports: month index in range
and day within the month. -/
def CDate.Valid (p : CDate) : Prop :=
  0 ≤ p.m ∧ p.m ≤ 11 ∧ 1 ≤ p.d ∧ p.d ≤ lastDayOfMonth p.y p.m

instance (p : CDate) : Decidable p.Valid := by
  unfold CDate.Valid; infer_instance

/-- JS `Date.prototype.getDay` of a day number: 0 = Sunday .. 6 = Saturday
(1970-01-01 was a Thursday, index 4). -/
def getDay (n : Int) : Int := (n + 4) % 7

/-- The weekend adjustment of `getNextPayday` (lines 86-87 and 96-97 of
`App.jsx`): a Saturday is moved back one day, then a Sunday is moved back two
days. -/
def weekendAdjust (n : Int) : Int :=
  let n1 := if getDay n = 6 then n - 1 else n
  if getDay n1 = 0 then n1 - 2 else n1

/-- One candidate of `getNextPayday` (loop body, lines 80-87 of `App.jsx`):
month at `offset` from today's month (rolling the year), requested day of
month capped to that month's length before constructing the date, then the
weekend adjustment. -/
def paydayCandidate (today : CDate) (offset : Int) (dayOfMonth : Int) : Int :=
  let rawMonth := today.m + offset
  let year := today.y + rawMonth / 12
  let month := rawMonth % 12
  let lastDay := lastDayOfMonth year month
  let safeDay := min dayOfMonth lastDay
  weekendAdjust (toDays year month safeDay)

/-- The fallback of `getNextPayday` (lines 90-98 of `App.jsx`), written out
exactly as in the source: note it recomputes `rawMonth = today's month + 1`,
i.e. the month at offset 1. -/
def fallbackPayday (today : CDate) (dayOfMonth : Int) : Int :=
  let rawMonth := today.m + 1
  let year := today.y + rawMonth / 12
  let month := rawMonth % 12
  let lastDay := lastDayOfMonth year month
  let safeDay := min dayOfMonth lastDay
  weekendAdjust (toDays year month safeDay)

/-- `getNextPayday` (lines 77-99 of `App.jsx`), with the system clock read
(`new Date()` truncated to midnight) made an explicit `today` argument.  The
loop over offsets 0 and 1 is unrolled; a candidate is returned as soon as it is
on or after today (`d >= today`, a timestamp comparison).  The returned ISO
string is represented by its day count. -/
def getNextPayday (today : CDate) (dayOfMonth : Int) : Int :=
  if today.days ≤ paydayCandidate today 0 dayOfMonth then
    paydayCandidate today 0 dayOfMonth
  else if today.days ≤ paydayCandidate today 1 dayOfMonth then
    paydayCandidate today 1 dayOfMonth
  else
    fallbackPayday today dayOfMonth

/-- A transaction record as built by `addSpend` (line 458 of `App.jsx`).
`type` is one of the strings of `TRANSACTION_TYPES`; `none` models an absent
(`undefined`) type, which the source treats as an expense.  `goalId` models the
(string) goal reference; `none` is the empty/absent reference. -/
structure Tx where
  id : Int
  name : String
  category : String
  amount : Rat
  date : CDate
  type : Option String
  goalId : Option Int
deriving DecidableEq, Repr

/-- One pay period as produced by `getPayPeriods`: window `[start, endD]` and
the transactions falling in it (`endD` named for the source's `end`, a Lean
keyword). -/
structure Period where
  start : CDate
  endD : CDate
  items : List Tx
deriving DecidableEq, Repr

/-- Default `Period` used with `List.getD` in statements. -/
def dPeriod : Period := ⟨⟨1970, 0, 1⟩, ⟨1970, 0, 1⟩, []⟩

/-- Models `start.setMonth(start.getMonth() - 1)` (line 130 of `App.jsx`) on a
JS `Date` holding civil fields: decrement the month index, borrowing from the
year, then apply JS normalisation when the day overflows the target month
(e.g. "Feb 31" becomes Mar 3).  A single normalisation step suffices because
every month has at least 28 days and a civil day is at most 31. -/
def setMonthBack (p : CDate) : CDate :=
  let y := if p.m = 0 then p.y - 1 else p.y
  let m := if p.m = 0 then 11 else p.m - 1
  let L := lastDayOfMonth y m
  if p.d ≤ L then ⟨y, m, p.d⟩
  else if m = 11 then ⟨y + 1, 0, p.d - L⟩ else ⟨y, m + 1, p.d - L⟩

/-- `setMonthBack` iterated, innermost first: `iterBack (k+1) e` applies
`setMonthBack` to `e` and then iterates `k` more times. -/
def iterBack : Nat → CDate → CDate
  | 0, e => e
  | k + 1, e => iterBack k (setMonthBack e)

/-- The first loop of `getPayPeriods` (lines 128-133 of `App.jsx`): starting
from `end`, repeatedly emit `(start, end)` with `start` one calendar month
back, then continue from `start`. -/
def buildChain : CDate → Nat → List (CDate × CDate)
  | _, 0 => []
  | e, n + 1 => (setMonthBack e, e) :: buildChain (setMonthBack e) n

/-- The period membership test of `getPayPeriods` (lines 136-142 of `App.jsx`):
`d >= p.start && d < endInclusive`, where `endInclusive` is `p.end` plus one
day — i.e. the end date is inclusive. -/
def periodFilter (s e : CDate) (t : Tx) : Bool :=
  decide (s.days ≤ t.date.days) && decide (t.date.days < e.days + 1)

/-- `getPayPeriods` (lines 125-146 of `App.jsx`): six backward-chained monthly
windows anchored on the next payday, most recent first, each carrying the
transactions whose (locally parsed) date falls inside it.  The display label is
presentation-only and omitted. -/
def getPayPeriods (spending : List Tx) (pd : CDate) : List Period :=
  (buildChain pd 6).map fun p =>
    { start := p.1, endD := p.2, items := spending.filter (periodFilter p.1 p.2) }

/-- A budget bucket (shape of `DEFAULT_BUDGET`, lines 57-64 of `App.jsx`):
a percentage share of income plus the list of category names assigned to it. -/
structure Bucket where
  id : Int
  label : String
  pct : Rat
  color : String
  cats : List String
deriving DecidableEq, Repr

/-- Default `Bucket` used with `List.getD` in statements. -/
def dBucket : Bucket := ⟨0, "", 0, "", []⟩

/-- `DEFAULT_BUDGET` (lines 57-64 of `App.jsx`); colors are the design-token
hex strings. -/
def DEFAULT_BUDGET : List Bucket :=
  [⟨1, "Savings", 20, "#7a9e7e", []⟩,
   ⟨2, "Home & Bills", 30, "#c4a882", ["Home"]⟩,
   ⟨3, "Transport", 10, "#b8796a", ["Transport"]⟩,
   ⟨4, "Groceries", 15, "#a8b5c8", ["Groceries"]⟩,
   ⟨5, "Personal & Fun", 15, "#c4a0b0", ["Beauty", "Entertainment", "Clothing", "Dining"]⟩,
   ⟨6, "Investments", 10, "#7a9ea0", []⟩]

/-- The category-chip click handler of the budget settings sheet (lines
1304-1319 of `App.jsx`) for the bucket at index `i`: `included` says whether
`cat` is already in this bucket, `takenBy` is the first OTHER bucket currently
holding `cat` (`otherBuckets.find`).  If `cat` is not here but held by another
bucket, a single `setBudget` update removes it from that bucket and appends it
to this one; otherwise the indexed update toggles it on this bucket — removing
it when present, appending it when absent. -/
def assignClick (budget : List Bucket) (i : Nat) (cat : String) : List Bucket :=
  let b := budget.getD i dBucket
  let assignedCats := b.cats
  let otherBuckets := budget.eraseIdx i
  let takenBy := otherBuckets.find? fun x => x.cats.contains cat
  let included := assignedCats.contains cat
  match included, takenBy with
  | false, some t =>
      budget.map fun x =>
        if x.id = t.id then { x with cats := x.cats.filter fun c => c != cat }
        else if x.id = b.id then { x with cats := x.cats ++ [cat] }
        else x
  | _, _ =>
      budget.mapIdx fun j x =>
        if j = i then
          { x with
            cats := if included then assignedCats.filter fun c => c != cat
                    else assignedCats ++ [cat] }
        else x

/-- The expense filter of the period view (line 443 of `App.jsx`,
`s.type==="Expense"||!s.type`): a transaction counts as an expense when its
type is "Expense" or absent. -/
def isExpenseLike (s : Tx) : Bool := s.type == some "Expense" || s.type == none

/-- `spentByCat` (lines 443-448 of `App.jsx`) as the lookup function of the JS
accumulator object: `periodItems` first keeps only expense-like transactions,
then `reduce((acc,s)=>{acc[s.category]=(acc[s.category]||0)+s.amount; ...},{})`
builds a mapping category → summed amount, a missing key reading as 0. -/
def spentByCat (items : List Tx) : String → Rat :=
  (items.filter isExpenseLike).foldl
    (fun acc s => fun c => if c = s.category then acc c + s.amount else acc c)
    (fun _ => 0)

/-- `impulseScore` (lines 106-109 of `App.jsx`). -/
def impulseScore (days : Rat) (quiz : Option Rat) : Rat :=
  let d := min (days / 90) 1
  let q := match quiz with
    | some q => q / 10
    | none => 0.3
  min ((d * 0.5 + q * 0.5) * 100) 100

/-- A savings goal (`Goal` records of `App.jsx`). -/
structure Goal where
  id : Int
  name : String
  target : Rat
  current : Rat
deriving DecidableEq, Repr

/-- The draft-transaction form state (`draftSpend`, line 375-376 of `App.jsx`).
`amount` is the result of `parseFloat` on the amount text: `none` models a
string that does not parse to a number (the JS `NaN`). `goalId` is `none` for
the empty reference string. -/
structure Draft where
  name : String
  category : String
  amount : Option Rat
  date : CDate
  type : Option String
  goalId : Option Int
deriving DecidableEq, Repr

/-- The slice of the React component state that the financial actions
(`addSpend`, `saveSpend`, swipe-delete) read or write. -/
structure AppState where
  spending : List Tx
  goals : List Goal
  budget : List Bucket
  draftSpend : Draft
  sheet : Option String
deriving DecidableEq, Repr

/-- `freshSpend()` (line 375 of `App.jsx`): the blank draft. -/
def freshSpend (today : CDate) : Draft :=
  ⟨"", "Groceries", none, today, some "Expense", none⟩

/-- `addSpend` (lines 454-468 of `App.jsx`).  The guard `!amt || amt <= 0`
returns early — before any state update — when the amount does not parse
(`NaN`, our `none`), is zero (falsy) or negative.  Otherwise the entry is
appended to `spending`; if its type is "Transfer to Savings" or "Investment"
and its goal reference is non-empty, the referenced goal's `current` is
incremented by the amount; finally the draft is reset and the sheet closed.
`Date.now()` (the new id) and today's date are explicit arguments. -/
def addSpend (st : AppState) (newId : Int) (today : CDate) : AppState :=
  match st.draftSpend.amount with
  | none => st
  | some amt =>
    if amt ≤ 0 then st
    else
      let name := if st.draftSpend.name.trim = "" then st.draftSpend.category
                  else st.draftSpend.name.trim
      let entry : Tx := ⟨newId, name, st.draftSpend.category, amt, st.draftSpend.date,
        st.draftSpend.type, st.draftSpend.goalId⟩
      let goals1 :=
        if entry.type == some "Transfer to Savings" && entry.goalId.isSome then
          st.goals.map fun x =>
            if some x.id == entry.goalId then { x with current := x.current + entry.amount }
            else x
        else st.goals
      let goals2 :=
        if entry.type == some "Investment" && entry.goalId.isSome then
          goals1.map fun x =>
            if some x.id == entry.goalId then { x with current := x.current + entry.amount }
            else x
        else goals1
      { st with
        spending := st.spending ++ [entry]
        goals := goals2
        draftSpend := freshSpend today
        sheet := none }

/-- `saveSpend` (lines 470-473 of `App.jsx`): full-record replacement of the
edited transaction; goals are not touched. -/
def saveSpend (st : AppState) (editSpend : Tx) : AppState :=
  { st with
    spending := st.spending.map fun x => if x.id = editSpend.id then editSpend else x
    sheet := none }

/-- The swipe-row delete handler (line 745 of `App.jsx`):
`setSpending(sp=>sp.filter(x=>x.id!==s.id))`; goals are not touched. -/
def deleteSpend (st : AppState) (txId : Int) : AppState :=
  { st with spending := st.spending.filter fun x => x.id != txId }

/- ───────────────────────────── theorems ───────────────────────────── -/

theorem lastDayOfMonth_bounds (y m : Int) :
    28 ≤ lastDayOfMonth y m ∧ lastDayOfMonth y m ≤ 31 := by
  unfold lastDayOfMonth
  split
  · split <;> omega
  · split <;> omega

theorem toDays_day_shift (y m d k : Int) : toDays y m (d + k) = toDays y m d + k := by
  simp only [toDays]
  split <;> ring

theorem toDays_succ_month (y m d : Int) (h0 : 0 ≤ m) (h1 : m ≤ 10) :
    toDays y (m + 1) d = toDays y m d + lastDayOfMonth y m := by
  have hL : isLeap y = true ∨ isLeap y = false := by
    cases isLeap y <;> simp
  interval_cases m <;>
    rcases hL with hL | hL <;>
    simp only [toDays, lastDayOfMonth, isLeap, hL] at * <;>
    norm_num <;>
    omega

theorem toDays_jan (y d : Int) : toDays y 0 d = toDays (y - 1) 11 d + 31 := by
  simp only [toDays]
  norm_num
  omega

theorem setMonthBack_days (p : CDate) (hp : p.Valid) :
    (setMonthBack p).days =
      p.days - lastDayOfMonth (if p.m = 0 then p.y - 1 else p.y)
        (if p.m = 0 then 11 else p.m - 1) := by
  obtain ⟨hm0, hm1, hd1, hd2⟩ := hp
  by_cases h0 : p.m = 0
  · have hdec : lastDayOfMonth (p.y - 1) 11 = 31 := by unfold lastDayOfMonth; norm_num
    have hcur : lastDayOfMonth p.y 0 = 31 := by unfold lastDayOfMonth; norm_num
    have hd31 : p.d ≤ 31 := by rw [h0, hcur] at hd2; exact hd2
    have hjan := toDays_jan p.y p.d
    simp only [setMonthBack, h0, if_true, ite_true, hdec, reduceIte, hd31, CDate.days]
    simp only [CDate.days, h0] at *
    omega
  · have hstep := toDays_succ_month p.y (p.m - 1) p.d (by omega) (by omega)
    have hm' : p.m - 1 + 1 = p.m := by omega
    rw [hm'] at hstep
    have hne11 : p.m - 1 ≠ 11 := by omega
    simp only [setMonthBack, h0, if_false, ite_false, CDate.days]
    by_cases hdL : p.d ≤ lastDayOfMonth p.y (p.m - 1)
    · rw [if_pos hdL]
      simp only [CDate.days] at *
      omega
    · rw [if_neg hdL, if_neg hne11]
      have hshift := toDays_day_shift p.y (p.m - 1 + 1) (p.d - lastDayOfMonth p.y (p.m - 1))
        (lastDayOfMonth p.y (p.m - 1))
      have he : p.d - lastDayOfMonth p.y (p.m - 1) + lastDayOfMonth p.y (p.m - 1) = p.d := by
        ring
      rw [hm', he] at hshift
      simp only [CDate.days] at *
      rw [hm']
      omega

theorem setMonthBack_valid (p : CDate) (hp : p.Valid) : (setMonthBack p).Valid := by
  obtain ⟨hm0, hm1, hd1, hd2⟩ := hp
  have hcurb := lastDayOfMonth_bounds p.y p.m
  by_cases h0 : p.m = 0
  · have hdec : lastDayOfMonth (p.y - 1) 11 = 31 := by unfold lastDayOfMonth; norm_num
    have hcur : lastDayOfMonth p.y 0 = 31 := by unfold lastDayOfMonth; norm_num
    have hd31 : p.d ≤ 31 := by rw [h0, hcur] at hd2; exact hd2
    simp only [setMonthBack, h0, ite_true, hdec, hd31, reduceIte]
    simp only [CDate.Valid]
    refine ⟨by omega, by omega, by omega, by omega⟩
  · have hne11 : p.m - 1 ≠ 11 := by omega
    have hprevb := lastDayOfMonth_bounds p.y (p.m - 1)
    simp only [setMonthBack, h0, ite_false]
    by_cases hdL : p.d ≤ lastDayOfMonth p.y (p.m - 1)
    · rw [if_pos hdL]
      simp only [CDate.Valid]
      refine ⟨by omega, by omega, by omega, by omega⟩
    · rw [if_neg hdL, if_neg hne11]
      have hmm : p.m - 1 + 1 = p.m := by omega
      simp only [CDate.Valid]
      rw [hmm]
      refine ⟨by omega, by omega, by omega, by omega⟩

theorem setMonthBack_days_le (p : CDate) (hp : p.Valid) :
    (setMonthBack p).days ≤ p.days - 28 := by
  rw [setMonthBack_days p hp]
  have := lastDayOfMonth_bounds (if p.m = 0 then p.y - 1 else p.y)
    (if p.m = 0 then 11 else p.m - 1)
  omega

theorem iterBack_valid (k : Nat) (e : CDate) (he : e.Valid) : (iterBack k e).Valid := by
  induction k generalizing e with
  | zero => exact he
  | succ k ih => exact ih (setMonthBack e) (setMonthBack_valid e he)

theorem iterBack_succ_outer (k : Nat) (e : CDate) :
    iterBack (k + 1) e = setMonthBack (iterBack k e) := by
  induction k generalizing e with
  | zero => rfl
  | succ k ih => exact ih (setMonthBack e)

theorem iterBack_days_step (k : Nat) (e : CDate) (he : e.Valid) :
    (iterBack (k + 1) e).days ≤ (iterBack k e).days - 28 := by
  rw [iterBack_succ_outer]
  exact setMonthBack_days_le (iterBack k e) (iterBack_valid k e he)

theorem buildChain_length (e : CDate) (n : Nat) : (buildChain e n).length = n := by
  induction n generalizing e with
  | zero => rfl
  | succ n ih => simp [buildChain, ih]

theorem buildChain_getD (e : CDate) (n i : Nat) (h : i < n) (dflt : CDate × CDate) :
    (buildChain e n).getD i dflt = (iterBack (i + 1) e, iterBack i e) := by
  induction n generalizing e i with
  | zero => omega
  | succ n ih =>
    cases i with
    | zero => rfl
    | succ i =>
      simp only [buildChain, List.getD_cons_succ]
      rw [ih (setMonthBack e) i (by omega)]
      rfl

theorem getPayPeriods_getD (txs : List Tx) (pd : CDate) (i : Nat) (h : i < 6) :
    (getPayPeriods txs pd).getD i dPeriod =
      { start := iterBack (i + 1) pd, endD := iterBack i pd,
        items := txs.filter (periodFilter (iterBack (i + 1) pd) (iterBack i pd)) } := by
  have hlen : (buildChain pd 6).length = 6 := buildChain_length pd 6
  have hi : i < (buildChain pd 6).length := by omega
  unfold getPayPeriods
  rw [List.getD_eq_getElem _ _ (by simpa using hi)]
  rw [List.getElem_map]
  have := buildChain_getD pd 6 i h ((buildChain pd 6)[i])
  rw [List.getD_eq_getElem _ _ hi] at this
  rw [this]

/-- **C1, counterexample.** With next payday 2025-06-06, period 0 is
[2025-05-06, 2025-06-06] and period 1 is [2025-04-06, 2025-05-06]; a
transaction dated 2025-05-06 — period 1's inclusive end, which is also period
0's start — is placed in the items of BOTH periods, so the periods are not
non-overlapping as item sets. -/
theorem getPayPeriods_overlap_at_boundary :
    (⟨1, "coffee", "Groceries", 10, ⟨2025, 4, 6⟩, some "Expense", none⟩ : Tx) ∈
      ((getPayPeriods [⟨1, "coffee", "Groceries", 10, ⟨2025, 4, 6⟩, some "Expense", none⟩]
        ⟨2025, 5, 6⟩).getD 0 dPeriod).items ∧
    (⟨1, "coffee", "Groceries", 10, ⟨2025, 4, 6⟩, some "Expense", none⟩ : Tx) ∈
      ((getPayPeriods [⟨1, "coffee", "Groceries", 10, ⟨2025, 4, 6⟩, some "Expense", none⟩]
        ⟨2025, 5, 6⟩).getD 1 dPeriod).items := by
  constructor
  · decide
  · decide

/-- **C1, amended.** The 6 periods are contiguous — each period's `start` is
exactly the next older period's `end` — and a transaction dated exactly on a
period's inclusive end date is in that period's items and NOT in the adjacent
older period's items.  (Adjacent periods are however not disjoint: the shared
boundary date belongs to both, see the counterexample.) -/
theorem getPayPeriods_end_boundary (txs : List Tx) (pd : CDate) (hpd : pd.Valid)
    (i : Nat) (hi : i + 1 < 6) (t : Tx) (ht : t ∈ txs)
    (hdate : t.date.days = ((getPayPeriods txs pd).getD i dPeriod).endD.days) :
    ((getPayPeriods txs pd).getD (i + 1) dPeriod).endD =
      ((getPayPeriods txs pd).getD i dPeriod).start ∧
    t ∈ ((getPayPeriods txs pd).getD i dPeriod).items ∧
    t ∉ ((getPayPeriods txs pd).getD (i + 1) dPeriod).items := by
  rw [getPayPeriods_getD txs pd i (by omega)] at hdate ⊢
  rw [getPayPeriods_getD txs pd (i + 1) hi]
  simp only at hdate
  have hstep1 := iterBack_days_step i pd hpd
  have hstep2 := iterBack_days_step (i + 1) pd hpd
  refine ⟨rfl, ?_, ?_⟩
  · refine List.mem_filter.mpr ⟨ht, ?_⟩
    simp only [periodFilter, Bool.and_eq_true, decide_eq_true_eq]
    omega
  · intro hmem
    have hf := (List.mem_filter.mp hmem).2
    simp only [periodFilter, Bool.and_eq_true, decide_eq_true_eq] at hf
    omega

/-- Witness for `getPayPeriods_end_boundary`: payday 2025-06-06, transaction
dated on period 0's end 2025-06-06. -/
theorem getPayPeriods_end_boundary_holds :
    ((getPayPeriods [⟨2, "tea", "Dining", 5, ⟨2025, 5, 6⟩, none, none⟩]
        ⟨2025, 5, 6⟩).getD 1 dPeriod).endD =
      ((getPayPeriods [⟨2, "tea", "Dining", 5, ⟨2025, 5, 6⟩, none, none⟩]
        ⟨2025, 5, 6⟩).getD 0 dPeriod).start ∧
    (⟨2, "tea", "Dining", 5, ⟨2025, 5, 6⟩, none, none⟩ : Tx) ∈
      ((getPayPeriods [⟨2, "tea", "Dining", 5, ⟨2025, 5, 6⟩, none, none⟩]
        ⟨2025, 5, 6⟩).getD 0 dPeriod).items ∧
    (⟨2, "tea", "Dining", 5, ⟨2025, 5, 6⟩, none, none⟩ : Tx) ∉
      ((getPayPeriods [⟨2, "tea", "Dining", 5, ⟨2025, 5, 6⟩, none, none⟩]
        ⟨2025, 5, 6⟩).getD 1 dPeriod).items :=
  getPayPeriods_end_boundary _ ⟨2025, 5, 6⟩ (by decide) 0 (by omega) _ (by decide) (by decide)

/-- **C6, counterexample.** Anchoring the period chain on 2025-03-31: the
month-back step sets the month of Mar 31 to February, i.e. "Feb 31 2025",
which JS `Date` normalisation rolls forward to 2025-03-03 — it does NOT clamp
to 2025-02-28, the last valid day of the shorter month, as the claim states. -/
theorem getPayPeriods_march31_not_clamped :
    ((getPayPeriods [] ⟨2025, 2, 31⟩).getD 0 dPeriod).start = ⟨2025, 2, 3⟩ ∧
    ((getPayPeriods [] ⟨2025, 2, 31⟩).getD 0 dPeriod).start ≠ ⟨2025, 1, 28⟩ := by
  constructor
  · decide
  · decide

/-- **C6, amended.** The month-back step of `getPayPeriods` uses native JS
calendar rollover: the resulting start is always a valid date whose timestamp
is exactly the anchor's minus the length of the calendar month preceding the
anchor's month.  When the anchor's day-of-month does not exist in that shorter
month, this lands inside the anchor's own month (e.g. Mar 31 steps back to
Mar 3), not on the shorter month's last valid day. -/
theorem getPayPeriods_month_step (txs : List Tx) (pd : CDate) (hpd : pd.Valid) :
    ((getPayPeriods txs pd).getD 0 dPeriod).start.days =
      pd.days - lastDayOfMonth (if pd.m = 0 then pd.y - 1 else pd.y)
        (if pd.m = 0 then 11 else pd.m - 1) ∧
    ((getPayPeriods txs pd).getD 0 dPeriod).start.Valid := by
  rw [getPayPeriods_getD txs pd 0 (by omega)]
  exact ⟨setMonthBack_days pd hpd, setMonthBack_valid pd hpd⟩

/-- Witness for `getPayPeriods_month_step` at anchor 2025-03-31. -/
theorem getPayPeriods_month_step_holds :
    ((getPayPeriods [] ⟨2025, 2, 31⟩).getD 0 dPeriod).start.days =
      CDate.days ⟨2025, 2, 31⟩ - lastDayOfMonth
        (if (2 : Int) = 0 then 2025 - 1 else 2025) (if (2 : Int) = 0 then 11 else 2 - 1) ∧
    ((getPayPeriods [] ⟨2025, 2, 31⟩).getD 0 dPeriod).start.Valid :=
  getPayPeriods_month_step [] ⟨2025, 2, 31⟩ (by decide)

theorem getDay_weekendAdjust (n : Int) :
    getDay (weekendAdjust n) ≠ 0 ∧ getDay (weekendAdjust n) ≠ 6 := by
  simp only [weekendAdjust, getDay]
  split <;> split <;> omega

theorem fallbackPayday_eq_candidate (today : CDate) (dayOfMonth : Int) :
    fallbackPayday today dayOfMonth = paydayCandidate today 1 dayOfMonth := rfl

/-- **C5.** `getNextPayday` never returns a Saturday or a Sunday: every branch
returns a weekend-adjusted candidate, and the adjustment (Saturday back one
day, Sunday back two days) always lands on a weekday. -/
theorem getNextPayday_never_weekend (today : CDate) (dayOfMonth : Int) :
    getDay (getNextPayday today dayOfMonth) ≠ 0 ∧
    getDay (getNextPayday today dayOfMonth) ≠ 6 := by
  unfold getNextPayday
  split
  · exact getDay_weekendAdjust _
  · split
    · exact getDay_weekendAdjust _
    · exact getDay_weekendAdjust _

/-- **C2, counterexample.** On 2025-05-31 (a Saturday) with payday day 1,
neither the offset-0 candidate (2025-05-01) nor the offset-1 candidate
(2025-06-01, a Sunday, adjusted to 2025-05-30) is on or after today, so the
fallback runs; it returns 2025-05-30 — the offset-1 candidate — and not the
month-at-offset-2 candidate 2025-07-01 that the claim prescribes. -/
theorem getNextPayday_fallback_not_offset2 :
    ¬ (CDate.days ⟨2025, 4, 31⟩ ≤ paydayCandidate ⟨2025, 4, 31⟩ 0 1) ∧
    ¬ (CDate.days ⟨2025, 4, 31⟩ ≤ paydayCandidate ⟨2025, 4, 31⟩ 1 1) ∧
    getNextPayday ⟨2025, 4, 31⟩ 1 = toDays 2025 4 30 ∧
    paydayCandidate ⟨2025, 4, 31⟩ 2 1 = toDays 2025 6 1 ∧
    getNextPayday ⟨2025, 4, 31⟩ 1 ≠ paydayCandidate ⟨2025, 4, 31⟩ 2 1 := by
  refine ⟨by decide, by decide, by decide, by decide, by decide⟩

/-- **C2, amended.** If neither the offset-0 nor the offset-1 weekend-adjusted
candidate is on or after `today`, `getNextPayday` falls back to the month at
offset 1 (next month) — not offset 2 — recomputing the same clamp-then-construct
and weekend adjustment, and returns that candidate unconditionally, without
re-checking it against `today`. -/
theorem getNextPayday_fallback_offset1 (today : CDate) (dayOfMonth : Int)
    (h0 : ¬ today.days ≤ paydayCandidate today 0 dayOfMonth)
    (h1 : ¬ today.days ≤ paydayCandidate today 1 dayOfMonth) :
    getNextPayday today dayOfMonth = paydayCandidate today 1 dayOfMonth := by
  unfold getNextPayday
  rw [if_neg h0, if_neg h1, fallbackPayday_eq_candidate]

/-- Witness for `getNextPayday_fallback_offset1` at today = 2025-05-31,
payday day 1. -/
theorem getNextPayday_fallback_offset1_holds :
    getNextPayday ⟨2025, 4, 31⟩ 1 = paydayCandidate ⟨2025, 4, 31⟩ 1 1 :=
  getNextPayday_fallback_offset1 ⟨2025, 4, 31⟩ 1 (by decide) (by decide)

/-- **C4, counterexample.** Clicking the "Transport" chip on the Transport
bucket (index 2 of `DEFAULT_BUDGET`), whose set already contains "Transport",
does change the bucket list: the operation is a toggle, not a no-op. -/
theorem assignClick_included_not_noop :
    assignClick DEFAULT_BUDGET 2 "Transport" ≠ DEFAULT_BUDGET := by decide

theorem find?_eq_some_of_unique {p : Bucket → Bool} {l : List Bucket} {a : Bucket}
    (hmem : a ∈ l) (hpa : p a = true) (huniq : ∀ x ∈ l, p x = true → x = a) :
    l.find? p = some a := by
  induction l with
  | nil => cases hmem
  | cons hd tl ih =>
    by_cases hp : p hd = true
    · have hda : hd = a := huniq hd (List.mem_cons_self hd tl) hp
      rw [List.find?_cons_of_pos _ hp, hda]
    · rw [List.find?_cons_of_neg _ (by simpa using hp)]
      have hne : a ≠ hd := fun h => hp (h ▸ hpa)
      have hmem' : a ∈ tl := by
        rcases List.mem_cons.mp hmem with h | h
        · exact absurd h hne
        · exact h
      exact ih hmem' (fun x hx hpx => huniq x (List.mem_cons_of_mem hd hx) hpx)

/-- **C4, amended.** If `cat` is already in the target bucket's set, the
category-click operation is not a no-op: it removes `cat` from that bucket
(the same control doubles as the unassign operation), leaving every other
bucket unchanged. -/
theorem assignClick_included_removes (budget : List Bucket) (i : Nat) (cat : String)
    (hi : i < budget.length) (hin : cat ∈ (budget.getD i dBucket).cats) :
    cat ∉ ((assignClick budget i cat).getD i dBucket).cats ∧
    ((assignClick budget i cat).getD i dBucket).cats
      = (budget.getD i dBucket).cats.filter (fun c => c != cat) ∧
    ∀ j : Nat, j < budget.length → j ≠ i →
      (assignClick budget i cat).getD j dBucket = budget.getD j dBucket := by
  have hinc : (budget.getD i dBucket).cats.contains cat = true := by
    simpa using hin
  have hres : assignClick budget i cat
      = budget.mapIdx fun j x =>
          if j = i then
            { x with cats := (budget.getD i dBucket).cats.filter fun c => c != cat }
          else x := by
    unfold assignClick
    simp only [hinc, if_true]
  have hlen : (assignClick budget i cat).length = budget.length := by
    rw [hres]; simp [List.length_mapIdx]
  refine ⟨?_, ?_, ?_⟩
  · rw [hres, List.getD_eq_getElem _ _ (by simp [List.length_mapIdx]; omega)]
    rw [List.getElem_mapIdx]
    simp [List.mem_filter]
  · rw [hres, List.getD_eq_getElem _ _ (by simp [List.length_mapIdx]; omega)]
    rw [List.getElem_mapIdx]
    simp [List.getD_eq_getElem _ _ hi]
  · intro j hj hji
    rw [hres, List.getD_eq_getElem _ _ (by simp [List.length_mapIdx]; omega),
      List.getD_eq_getElem _ _ hj]
    rw [List.getElem_mapIdx]
    simp [hji]

theorem countP_eq_of_forall {α : Type} {l : List α} {p q : α → Bool}
    (h : ∀ x ∈ l, p x = q x) : l.countP p = l.countP q := by
  induction l with
  | nil => rfl
  | cons a l ih =>
    rw [List.countP_cons, List.countP_cons, h a (List.mem_cons_self a l),
      ih (fun x hx => h x (List.mem_cons_of_mem a hx))]

/-- **C3.** If `cat` currently belongs to exactly one bucket `B1`, different
from the target bucket (index `i`), then the click operation removes it from
`B1` and appends it to the target in the same single `setBudget` update:
afterwards `cat` appears in exactly one bucket's category set, and that set is
the target's. -/
theorem assignClick_exclusive (budget : List Bucket) (i : Nat) (cat : String) (B1 : Bucket)
    (hids : (budget.map Bucket.id).Nodup)
    (hi : i < budget.length)
    (hnotin : cat ∉ (budget.getD i dBucket).cats)
    (hB1mem : B1 ∈ budget.eraseIdx i)
    (hB1cat : cat ∈ B1.cats)
    (huniq : ∀ x ∈ budget, cat ∈ x.cats → x = B1) :
    ((assignClick budget i cat).countP fun x => x.cats.contains cat) = 1 ∧
    cat ∈ ((assignClick budget i cat).getD i dBucket).cats := by
  have hbmem : budget.getD i dBucket ∈ budget := by
    rw [List.getD_eq_getElem _ _ hi]; exact List.getElem_mem hi
  have hB1mem2 : B1 ∈ budget := List.mem_of_mem_eraseIdx hB1mem
  have hbne : budget.getD i dBucket ≠ B1 := fun h => hnotin (h ▸ hB1cat)
  have hbid : (budget.getD i dBucket).id ≠ B1.id := fun h =>
    hbne (List.inj_on_of_nodup_map hids hbmem hB1mem2 h)
  have hninc : (budget.getD i dBucket).cats.contains cat = false := by
    simpa using hnotin
  have hfind : (budget.eraseIdx i).find? (fun x => x.cats.contains cat) = some B1 :=
    find?_eq_some_of_unique hB1mem (by simpa using hB1cat)
      (fun x hx hpx => huniq x (List.mem_of_mem_eraseIdx hx) (by simpa using hpx))
  have hres : assignClick budget i cat
      = budget.map fun x =>
          if x.id = B1.id then { x with cats := x.cats.filter fun c => c != cat }
          else if x.id = (budget.getD i dBucket).id then { x with cats := x.cats ++ [cat] }
          else x := by
    unfold assignClick
    simp only [hninc, hfind]
  rw [hres]
  constructor
  · rw [List.countP_map]
    have hpt : ∀ x ∈ budget,
        ((fun x => x.cats.contains cat) ∘ fun x =>
          if x.id = B1.id then { x with cats := x.cats.filter fun c => c != cat }
          else if x.id = (budget.getD i dBucket).id then { x with cats := x.cats ++ [cat] }
          else x) x
        = (x.id == (budget.getD i dBucket).id) := by
      intro x hx
      simp only [Function.comp_apply]
      by_cases h1 : x.id = B1.id
      · rw [if_pos h1]
        have hR : (x.id == (budget.getD i dBucket).id) = false :=
          beq_eq_false_iff_ne.mpr (by rw [h1]; exact fun h => hbid h.symm)
        rw [hR]
        simp
      · rw [if_neg h1]
        by_cases h2 : x.id = (budget.getD i dBucket).id
        · rw [if_pos h2]
          have hR : (x.id == (budget.getD i dBucket).id) = true := by
            simp [h2]
          rw [hR]
          simp
        · rw [if_neg h2]
          have hR : (x.id == (budget.getD i dBucket).id) = false :=
            beq_eq_false_iff_ne.mpr h2
          rw [hR]
          by_cases hmem : cat ∈ x.cats
          · exact absurd (congrArg Bucket.id (huniq x hx hmem)) h1
          · simpa using hmem
    rw [countP_eq_of_forall hpt]
    have hcnt := List.count_eq_one_of_mem hids (List.mem_map_of_mem Bucket.id hbmem)
    rw [List.count_eq_countP, List.countP_map] at hcnt
    exact hcnt
  · have hlen2 : i < (budget.map fun x =>
        if x.id = B1.id then { x with cats := x.cats.filter fun c => c != cat }
        else if x.id = (budget.getD i dBucket).id then { x with cats := x.cats ++ [cat] }
        else x).length := by
      simpa using hi
    rw [List.getD_eq_getElem _ _ hlen2, List.getElem_map]
    have hbget : budget[i] = budget.getD i dBucket := (List.getD_eq_getElem _ _ hi).symm
    rw [hbget, if_neg hbid, if_pos rfl]
    simp

/-- Witness for `assignClick_included_removes` on `DEFAULT_BUDGET`, bucket 2
(Transport), category "Transport". -/
theorem assignClick_included_removes_holds :
    "Transport" ∉ ((assignClick DEFAULT_BUDGET 2 "Transport").getD 2 dBucket).cats ∧
    ((assignClick DEFAULT_BUDGET 2 "Transport").getD 2 dBucket).cats
      = (DEFAULT_BUDGET.getD 2 dBucket).cats.filter (fun c => c != "Transport") ∧
    ∀ j : Nat, j < DEFAULT_BUDGET.length → j ≠ 2 →
      (assignClick DEFAULT_BUDGET 2 "Transport").getD j dBucket
        = DEFAULT_BUDGET.getD j dBucket :=
  assignClick_included_removes DEFAULT_BUDGET 2 "Transport" (by decide) (by decide)

/-- Witness for `assignClick_exclusive` on `DEFAULT_BUDGET`: moving "Transport"
from the Transport bucket (id 3) to the Savings bucket (index 0). -/
theorem assignClick_exclusive_holds :
    ((assignClick DEFAULT_BUDGET 0 "Transport").countP
      fun x => x.cats.contains "Transport") = 1 ∧
    "Transport" ∈ ((assignClick DEFAULT_BUDGET 0 "Transport").getD 0 dBucket).cats :=
  assignClick_exclusive DEFAULT_BUDGET 0 "Transport"
    ⟨3, "Transport", 10, "#b8796a", ["Transport"]⟩
    (by decide) (by decide) (by decide) (by decide) (by decide) (by decide)

theorem spentByCat_foldl (l : List Tx) (acc : String → Rat) (cat : String) :
    l.foldl (fun acc s => fun c => if c = s.category then acc c + s.amount else acc c) acc cat
      = acc cat + ((l.filter fun s => s.category == cat).map Tx.amount).sum := by
  induction l generalizing acc with
  | nil => simp
  | cons s l ih =>
    rw [List.foldl_cons, ih]
    by_cases h : s.category = cat
    · simp [List.filter_cons, h]
      ring
    · have hb : (s.category == cat) = false := beq_eq_false_iff_ne.mpr h
      have hc : ¬ (cat = s.category) := fun hh => h hh.symm
      simp [List.filter_cons, hb, hc]

/-- **C7.** The per-category totals sum amounts only over transactions whose
type is "Expense" or absent: `spentByCat items cat` is the sum of the amounts
of the expense-like transactions of category `cat`; in particular with
transactions {Groceries, 100, Expense} and {Groceries, 50, Transfer to
Savings}, the Groceries total is 100 — the transfer is excluded. -/
theorem spentByCat_expense_only :
    (∀ (items : List Tx) (cat : String),
      spentByCat items cat =
        (((items.filter isExpenseLike).filter fun s => s.category == cat).map Tx.amount).sum) ∧
    spentByCat
      [⟨1, "food", "Groceries", 100, ⟨2025, 0, 10⟩, some "Expense", none⟩,
       ⟨2, "save", "Groceries", 50, ⟨2025, 0, 11⟩, some "Transfer to Savings", none⟩]
      "Groceries" = 100 := by
  have hgen : ∀ (items : List Tx) (cat : String),
      spentByCat items cat =
        (((items.filter isExpenseLike).filter fun s => s.category == cat).map Tx.amount).sum := by
    intro items cat
    unfold spentByCat
    rw [spentByCat_foldl]
    simp
  refine ⟨hgen, ?_⟩
  rw [hgen]
  norm_num [isExpenseLike, List.filter]

/-- **C8.** The impulse score follows the spec formula
`min((min(daysWanted/90,1)*0.5 + (quiz? quiz/10 : 0.3)*0.5)*100, 100)`, lies in
[0, 100] for `daysWanted ≥ 0` and quiz score in [0, 10] (or absent), and takes
the values 65 at (90, absent) and 50 at (0, 10). -/
theorem impulseScore_spec (days : Rat) (quiz : Option Rat)
    (hd : 0 ≤ days) (hq : ∀ q ∈ quiz, 0 ≤ q ∧ q ≤ 10) :
    impulseScore days quiz
      = min ((min (days / 90) 1 * 0.5 + (quiz.elim 0.3 fun q => q / 10) * 0.5) * 100) 100 ∧
    0 ≤ impulseScore days quiz ∧ impulseScore days quiz ≤ 100 ∧
    impulseScore 90 none = 65 ∧ impulseScore 0 (some 10) = 50 := by
  have hmin : (0 : Rat) ≤ min (days / 90) 1 := le_min (by positivity) (by norm_num)
  refine ⟨by cases quiz <;> rfl, ?_, ?_, ?_, ?_⟩
  · cases quiz with
    | none =>
      show (0 : Rat) ≤ min ((min (days / 90) 1 * 0.5 + 0.3 * 0.5) * 100) 100
      refine le_min ?_ (by norm_num)
      nlinarith
    | some q =>
      obtain ⟨hq0, hq10⟩ := hq q rfl
      show (0 : Rat) ≤ min ((min (days / 90) 1 * 0.5 + q / 10 * 0.5) * 100) 100
      refine le_min ?_ (by norm_num)
      nlinarith
  · cases quiz with
    | none => exact min_le_right _ _
    | some q => exact min_le_right _ _
  · norm_num [impulseScore, min_def]
  · norm_num [impulseScore, min_def]

/-- Witness for `impulseScore_spec` at `daysWanted = 90`, quiz absent. -/
theorem impulseScore_spec_holds :
    impulseScore 90 none
      = min ((min ((90 : Rat) / 90) 1 * 0.5
          + ((none : Option Rat).elim 0.3 fun q => q / 10) * 0.5) * 100) 100 ∧
    0 ≤ impulseScore 90 none ∧ impulseScore 90 none ≤ 100 ∧
    impulseScore 90 none = 65 ∧ impulseScore 0 (some 10) = 50 :=
  impulseScore_spec 90 none (by norm_num) (by simp)

/-- **C9.** If the draft amount does not parse to a strictly positive number
(`parseFloat` gives `NaN`, zero or a negative), `addSpend` is rejected at the
boundary: the returned state is the input state — spending, goals and all
other modelled state unchanged, with no partial mutation. -/
theorem addSpend_invalid_amount_noop (st : AppState) (newId : Int) (today : CDate)
    (h : ∀ a, st.draftSpend.amount = some a → a ≤ 0) :
    addSpend st newId today = st := by
  unfold addSpend
  split
  · rfl
  · rename_i amt heq
    rw [if_pos (h amt heq)]

/-- Witness for `addSpend_invalid_amount_noop` on a draft whose amount parsed
to -5. -/
theorem addSpend_invalid_amount_noop_holds :
    addSpend ⟨[], [], [], ⟨"x", "Groceries", some (-5), ⟨2025, 0, 1⟩, some "Expense", none⟩, none⟩
        7 ⟨2025, 0, 2⟩
      = ⟨[], [], [], ⟨"x", "Groceries", some (-5), ⟨2025, 0, 1⟩, some "Expense", none⟩, none⟩ :=
  addSpend_invalid_amount_noop _ 7 ⟨2025, 0, 2⟩
    (fun a ha => by injection ha with h; rw [← h]; norm_num)

/-- **C10 (implicit).** Adding a Transfer-to-Savings or Investment transaction
whose goal reference resolves to an existing goal increments that goal's
`current` by the amount; but deleting the transaction just added, or editing
any transaction through `saveSpend`, leaves every goal unchanged — the
increment is never reversed, so goal balances and the transaction log can
diverge. -/
theorem addSpend_goal_divergence (st : AppState) (newId : Int) (today : CDate)
    (a : Rat) (g : Int) (G : Goal)
    (hamt : st.draftSpend.amount = some a) (hpos : 0 < a)
    (htype : st.draftSpend.type = some "Transfer to Savings" ∨
      st.draftSpend.type = some "Investment")
    (hgid : st.draftSpend.goalId = some g)
    (hG : G ∈ st.goals) (hGid : G.id = g) :
    (addSpend st newId today).goals
      = st.goals.map (fun x => if x.id = g then { x with current := x.current + a } else x) ∧
    { G with current := G.current + a } ∈ (addSpend st newId today).goals ∧
    (∀ txId, (deleteSpend (addSpend st newId today) txId).goals
      = (addSpend st newId today).goals) ∧
    (∀ e, (saveSpend (addSpend st newId today) e).goals = (addSpend st newId today).goals) := by
  have hmain : (addSpend st newId today).goals
      = st.goals.map (fun x => if x.id = g then { x with current := x.current + a } else x) := by
    unfold addSpend
    split
    · rename_i heq
      rw [hamt] at heq
      cases heq
    · rename_i amt heq
      rw [hamt] at heq
      injection heq with heq2
      subst heq2
      rw [if_neg (not_le.mpr hpos)]
      have hfun : ∀ goals : List Goal,
          (goals.map fun x : Goal =>
            if some x.id == some g then { x with current := x.current + a } else x)
          = goals.map fun x : Goal =>
            if x.id = g then { x with current := x.current + a } else x := by
        intro goals
        apply List.map_congr_left
        intro x _
        by_cases hx : x.id = g <;> simp [hx]
      rcases htype with ht | ht <;>
        simp only [ht, hgid] <;>
        simp [hfun]
  refine ⟨hmain, ?_, fun _ => rfl, fun _ => rfl⟩
  rw [hmain]
  have hfG : (fun x : Goal => if x.id = g then { x with current := x.current + a } else x) G
      = { G with current := G.current + a } := by
    show (if G.id = g then { G with current := G.current + a } else G)
      = { G with current := G.current + a }
    rw [if_pos hGid]
  rw [← hfG]
  exact List.mem_map_of_mem _ hG

/-- Witness for `addSpend_goal_divergence`: a 25-euro Transfer-to-Savings
draft linked to goal 42, with that goal present. -/
theorem addSpend_goal_divergence_holds :
    (addSpend ⟨[], [⟨42, "Trip", 1000, 100⟩], [],
        ⟨"t", "Groceries", some 25, ⟨2025, 0, 1⟩, some "Transfer to Savings", some 42⟩, none⟩
        7 ⟨2025, 0, 2⟩).goals
      = [⟨42, "Trip", 1000, 100⟩].map
          (fun x : Goal => if x.id = 42 then { x with current := x.current + 25 } else x) ∧
    { (⟨42, "Trip", 1000, 100⟩ : Goal) with
        current := (⟨42, "Trip", 1000, 100⟩ : Goal).current + 25 }
      ∈ (addSpend ⟨[], [⟨42, "Trip", 1000, 100⟩], [],
          ⟨"t", "Groceries", some 25, ⟨2025, 0, 1⟩, some "Transfer to Savings", some 42⟩, none⟩
          7 ⟨2025, 0, 2⟩).goals ∧
    (∀ txId, (deleteSpend (addSpend ⟨[], [⟨42, "Trip", 1000, 100⟩], [],
        ⟨"t", "Groceries", some 25, ⟨2025, 0, 1⟩, some "Transfer to Savings", some 42⟩, none⟩
        7 ⟨2025, 0, 2⟩) txId).goals
      = (addSpend ⟨[], [⟨42, "Trip", 1000, 100⟩], [],
        ⟨"t", "Groceries", some 25, ⟨2025, 0, 1⟩, some "Transfer to Savings", some 42⟩, none⟩
        7 ⟨2025, 0, 2⟩).goals) ∧
    (∀ e, (saveSpend (addSpend ⟨[], [⟨42, "Trip", 1000, 100⟩], [],
        ⟨"t", "Groceries", some 25, ⟨2025, 0, 1⟩, some "Transfer to Savings", some 42⟩, none⟩
        7 ⟨2025, 0, 2⟩) e).goals
      = (addSpend ⟨[], [⟨42, "Trip", 1000, 100⟩], [],
        ⟨"t", "Groceries", some 25, ⟨2025, 0, 1⟩, some "Transfer to Savings", some 42⟩, none⟩
        7 ⟨2025, 0, 2⟩).goals) :=
  addSpend_goal_divergence _ 7 ⟨2025, 0, 2⟩ 25 42 ⟨42, "Trip", 1000, 100⟩
    rfl (by norm_num) (Or.inl rfl) rfl (by decide) rfl
